import Mathlib

/-
Verification of the SurrealityV2 query-generation core against its
natural-language specification.

The development shallowly embeds the JavaScript/TypeScript sources:
  * src/Utils/casting.ts            (the Value Caster)
  * src/unnamed/part_011            (clause helpers: flattenIncludes,
                                     collectIncludeFields, generateWhereClause,
                                     generateOrderByClause,
                                     generateLimitOffsetClause,
                                     generateFetchClause)
  * src/Queries_generators/find_all_generation.ts
                                    (generateFindAllQuery, generateFindOneQuery)
  * src/dist/Queries_generators/update_generation.js
                                    (generateUpdateQuery, generateDeleteQuery)

JavaScript runtime values are modelled by the inductive type JSValue.
JavaScript numbers are modelled as exact decimal values (integers and
finite decimal fractions); float artefacts, hexadecimal and exponent
literals are outside the modelled scope, which suffices for every value
the claims touch.  JavaScript exceptions are modelled with Except:
a function that can throw returns Except Unit String, and the try/catch
of the Caster maps errors to the absence sentinel.  Recursion of the
Caster is not structural in JavaScript (it rebuilds wrapper objects),
so the embedding uses an explicit fuel argument; the canonical fuel
jsSize v strictly exceeds the recursion depth reachable from v, because
every re-entry of the Caster happens on a value of smaller jsSize.
-/

/-- JSNum models a JavaScript number as an exact decimal value:
`int i` is the integer i, `dec m e` (with e > 0 and m not divisible
by 10) is the fraction m / 10 ^ e. -/
inductive JSNum where
  | int (i : Int)
  | dec (m : Int) (e : Nat)
deriving DecidableEq

/-- JSValue models the JavaScript runtime values reachable in this
codebase: null, undefined, booleans, numbers, strings, arrays and
plain objects (an association list of own enumerable properties in
insertion order, without duplicate keys). -/
inductive JSValue where
  | vNull
  | vUndefined
  | vBool (b : Bool)
  | vNum (n : JSNum)
  | vStr (s : String)
  | vArr (elems : List JSValue)
  | vObj (fields : List (String × JSValue))

open JSValue JSNum

mutual
/-- Structural size of a JSValue; used as the canonical fuel for the
fuelled Caster. -/
def jsSize : JSValue → Nat
  | .vNull => 1
  | .vUndefined => 1
  | .vBool _ => 1
  | .vNum _ => 1
  | .vStr _ => 1
  | .vArr l => jsSizeList l + 2
  | .vObj fs => jsSizeFields fs + 2
def jsSizeList : List JSValue → Nat
  | [] => 0
  | v :: vs => jsSize v + jsSizeList vs + 1
def jsSizeFields : List (String × JSValue) → Nat
  | [] => 0
  | kv :: fs => jsSize kv.2 + jsSizeFields fs + 1
end

/-- The single-quote character, written by code point to keep string
literals free of quote characters. -/
def squote : Char := Char.ofNat 39

/-- The single-quote character as a one-character string. -/
def sqstr : String := String.singleton squote

/-- The double-quote character as a one-character string. -/
def dq : String := String.singleton (Char.ofNat 34)

/-- The left curly brace as a one-character string. -/
def lbr : String := String.singleton (Char.ofNat 123)

/-- The right curly brace as a one-character string. -/
def rbr : String := String.singleton (Char.ofNat 125)

/-- Decimal digit characters, as in Nat.digitChar. -/
def digitChar : Nat → Char
  | 0 => Char.ofNat 48
  | 1 => Char.ofNat 49
  | 2 => Char.ofNat 50
  | 3 => Char.ofNat 51
  | 4 => Char.ofNat 52
  | 5 => Char.ofNat 53
  | 6 => Char.ofNat 54
  | 7 => Char.ofNat 55
  | 8 => Char.ofNat 56
  | 9 => Char.ofNat 57
  | _ => Char.ofNat 42

/-- Fuelled accumulator loop producing the decimal digits of n
(most significant first), prepended to acc. -/
def natDigAux : Nat → Nat → List Char → List Char
  | 0, _, acc => acc
  | fuel + 1, n, acc =>
    if n < 10 then digitChar n :: acc
    else natDigAux fuel (n / 10) (digitChar (n % 10) :: acc)

/-- Decimal rendering of a natural number, as JavaScript String(n). -/
def natToString (n : Nat) : String := String.mk (natDigAux (n + 1) n [])

/-- Decimal rendering of an integer, as JavaScript String(i). -/
def intToString (i : Int) : String :=
  if i < 0 then "-" ++ natToString i.natAbs else natToString i.natAbs

/-- Digit list of the decimal value m / 10 ^ e with the decimal point
inserted, padding with leading zeros as JavaScript does (0.5, not .5). -/
def decDigits (m : Nat) (e : Nat) : List Char :=
  let ds := natDigAux (m + 1) m []
  let ds := if ds.length < e + 1 then List.replicate (e + 1 - ds.length) (digitChar 0) ++ ds else ds
  ds.take (ds.length - e) ++ (Char.ofNat 46 :: ds.drop (ds.length - e))

/-- Rendering of a modelled JavaScript number, as String(n) /
template-literal interpolation. -/
def numToString : JSNum → String
  | .int i => intToString i
  | .dec m e => (if m < 0 then "-" else "") ++ String.mk (decDigits m.natAbs e)

/-- Whitespace test used to model both the \s regex class and
String.prototype.trim (space, tab, CR, LF — the whitespace characters
appearing in the modelled scope). -/
def jsWS (c : Char) : Bool := c.isWhitespace

/-- List-level both-ends trim. -/
def trimCharsList (l : List Char) : List Char :=
  ((l.dropWhile jsWS).reverse.dropWhile jsWS).reverse

/-- Model of JavaScript String.prototype.trim. -/
def jsTrim (s : String) : String := String.mk (trimCharsList s.data)

/-- Model of the single-quote escaping replace call of the WHERE helper:
every single-quote character is doubled. -/
def escapeQuotes (s : String) : String :=
  String.mk (s.data.foldr (fun c acc => if c == squote then squote :: squote :: acc else c :: acc) [])

/-- isParameter from casting.ts: the string starts with a dollar sign and
contains exactly one dollar sign (str.split yields exactly two parts). -/
def isParameter (s : String) : Bool :=
  (match s.data with
   | c :: _ => c == Char.ofNat 36
   | [] => false) && s.data.count (Char.ofNat 36) == 1

/-- isDateTime from casting.ts: the regex
^ d4 - d2 - d2 T d2 : d2 : d2 . d3 Z $ where the dot matches ANY single
character (an unescaped dot in the source regex). -/
def isDateTime (s : String) : Bool :=
  match s.data with
  | [y1, y2, y3, y4, h1, mo1, mo2, h2, d1, d2, t, hh1, hh2, c1, mi1, mi2, c2, ss1, ss2, _, f1, f2, f3, z] =>
    y1.isDigit && y2.isDigit && y3.isDigit && y4.isDigit &&
    h1 == Char.ofNat 45 && mo1.isDigit && mo2.isDigit && h2 == Char.ofNat 45 &&
    d1.isDigit && d2.isDigit && t == Char.ofNat 84 &&
    hh1.isDigit && hh2.isDigit && c1 == Char.ofNat 58 &&
    mi1.isDigit && mi2.isDigit && c2 == Char.ofNat 58 &&
    ss1.isDigit && ss2.isDigit &&
    f1.isDigit && f2.isDigit && f3.isDigit && z == Char.ofNat 90
  | _ => false

/-- Characters allowed on either side of the colon by the isRecord
regex: alphanumerics, underscore, hyphen. -/
def isRecChar (c : Char) : Bool :=
  c.isDigit || c.isAlpha || c == Char.ofNat 95 || c == Char.ofNat 45

/-- isRecord from casting.ts: ^[a-zA-Z0-9_-]+:[a-zA-Z0-9_-]+$ — exactly
one colon with a nonempty run of allowed characters on each side. -/
def isRecord (s : String) : Bool :=
  match s.data.span (fun c => c != Char.ofNat 58) with
  | (a, _ :: b) => !a.isEmpty && !b.isEmpty && a.all isRecChar && b.all isRecChar
  | (_, []) => false

/-- The TYPES map of casting.ts: type names (upper-cased) to tags. -/
def TYPES : String → Option String
  | "ARRAY" => some ("<array>")
  | "BOOLEAN" => some ("<bool>")
  | "BYTES" => some ("<bytes>")
  | "DATETIME" => some ("<datetime>")
  | "DECIMAL" => some ("<decimal>")
  | "DURATION" => some ("<duration>")
  | "FLOAT" => some ("<float>")
  | "INT" => some ("<int>")
  | "NUMBER" => some ("<number>")
  | "RECORD" => some ("<record>")
  | "STRING" => some ("<string>")
  | "UUID" => some ("<uuid>")
  | _ => none

/-- Lower-case hexadecimal digit. -/
def hexDig (n : Nat) : Char := if n < 10 then digitChar n else Char.ofNat (87 + n)

/-- JSON string escaping for a single character, as JSON.stringify. -/
def escJSONChar (c : Char) : List Char :=
  if c == Char.ofNat 34 then [Char.ofNat 92, Char.ofNat 34]
  else if c == Char.ofNat 92 then [Char.ofNat 92, Char.ofNat 92]
  else if c == Char.ofNat 8 then [Char.ofNat 92, Char.ofNat 98]
  else if c == Char.ofNat 9 then [Char.ofNat 92, Char.ofNat 116]
  else if c == Char.ofNat 10 then [Char.ofNat 92, Char.ofNat 110]
  else if c == Char.ofNat 12 then [Char.ofNat 92, Char.ofNat 102]
  else if c == Char.ofNat 13 then [Char.ofNat 92, Char.ofNat 114]
  else if c.toNat < 32 then
    [Char.ofNat 92, Char.ofNat 117, digitChar 0, digitChar 0, hexDig (c.toNat / 16), hexDig (c.toNat % 16)]
  else [c]

/-- JSON quoting of a string, as JSON.stringify of a string value. -/
def quoteJSON (s : String) : String :=
  String.mk (Char.ofNat 34 :: s.data.foldr (fun c acc => escJSONChar c ++ acc) [Char.ofNat 34])

/-- Substring-at-position test: pat is a prefix of text. -/
def subListAt : List Char → List Char → Bool
  | [], _ => true
  | _ :: _, [] => false
  | p :: ps, c :: cs => p == c && subListAt ps cs

/-- Substring search helper over character lists. -/
def containsSubAux (pat : List Char) : List Char → Bool
  | [] => subListAt pat []
  | c :: cs => subListAt pat (c :: cs) || containsSubAux pat cs

/-- Substring containment test on strings. -/
def containsSub (pat s : String) : Bool := containsSubAux pat.data s.data

/-- Match, at the head of the list, the regex limit\s+\d (lowercased
comparison models the i flag; one whitespace then zero or more further
whitespace then a digit models \s+\d). -/
def limitAtHere : List Char → Bool
  | c1 :: c2 :: c3 :: c4 :: c5 :: rest =>
    c1.toLower == Char.ofNat 108 && c2.toLower == Char.ofNat 105 &&
    c3.toLower == Char.ofNat 109 && c4.toLower == Char.ofNat 105 &&
    c5.toLower == Char.ofNat 116 &&
    (match rest with
     | c :: _ =>
       jsWS c &&
       (match rest.dropWhile jsWS with
        | d :: _ => d.isDigit
        | [] => false)
     | [] => false)
  | _ => false

/-- Search for the limit\s+\d+ pattern anywhere in the list. -/
def limitSearch : List Char → Bool
  | [] => false
  | c :: rest => limitAtHere (c :: rest) || limitSearch rest

/-- Model of /limit\s+\d+/i.test(s) from the findOne generator. -/
def hasLimitNum (s : String) : Bool := limitSearch s.data

/-- ASCII lower-casing of a string, modelling toLowerCase on the
modelled scope. -/
def strToLower (s : String) : String := String.mk (s.data.map Char.toLower)

/-- ASCII upper-casing of a string, modelling toUpperCase on the
modelled scope. -/
def strToUpper (s : String) : String := String.mk (s.data.map Char.toUpper)

/-- JavaScript truthiness over modelled values. -/
def jsTruthy : JSValue → Bool
  | .vNull => false
  | .vUndefined => false
  | .vBool b => b
  | .vNum (.int i) => i != 0
  | .vNum (.dec _ _) => true
  | .vStr s => s != ""
  | .vArr _ => true
  | .vObj _ => true

/-- Test for the null value. -/
def isNullB : JSValue → Bool
  | .vNull => true
  | _ => false

/-- Test for the undefined value. -/
def isUndefB : JSValue → Bool
  | .vUndefined => true
  | _ => false

/-- Test for null or undefined. -/
def nullOrUndef : JSValue → Bool
  | .vNull => true
  | .vUndefined => true
  | _ => false

/-- Strict equality of a value with a string literal. -/
def isStrEq (v : JSValue) (lit : String) : Bool :=
  match v with
  | .vStr s => s == lit
  | _ => false

/-- Strict equality of a value with an integer number. -/
def isIntEq (v : JSValue) (i : Int) : Bool :=
  match v with
  | .vNum (.int j) => j == i
  | _ => false

/-- Strict equality of a value with a boolean. -/
def isBoolEq (v : JSValue) (b : Bool) : Bool :=
  match v with
  | .vBool b2 => b2 == b
  | _ => false

/-- Property lookup in an object field list; missing keys give
undefined, as in JavaScript. -/
def getProp (fs : List (String × JSValue)) (k : String) : JSValue :=
  match fs.find? (fun kv => kv.1 == k) with
  | some kv => kv.2
  | none => .vUndefined

/-- The in-operator: does the object have the key. -/
def hasKey (fs : List (String × JSValue)) (k : String) : Bool :=
  (fs.find? (fun kv => kv.1 == k)).isSome

/-- Property access on an arbitrary value when the base is known not to
throw (primitives box to objects without own properties). -/
def getPropD (v : JSValue) (k : String) : JSValue :=
  match v with
  | .vObj fs => getProp fs k
  | _ => .vUndefined

/-- Property access modelling the JavaScript semantics of value.as:
reading a property of null or undefined throws a TypeError; any other
base yields the property (undefined for primitives and arrays, which
have no "as" own property in this codebase). -/
def getPropE (v : JSValue) (k : String) : Except Unit JSValue :=
  match v with
  | .vNull => .error ()
  | .vUndefined => .error ()
  | .vObj fs => .ok (getProp fs k)
  | _ => .ok .vUndefined

mutual
/-- Model of the JavaScript String() coercion on modelled values. -/
def jsToString : JSValue → String
  | .vNull => "null"
  | .vUndefined => "undefined"
  | .vBool b => if b then "true" else "false"
  | .vNum n => numToString n
  | .vStr s => s
  | .vArr l => String.intercalate (",") (jsToStringElems l)
  | .vObj _ => "[object Object]"
/-- Array join(",") semantics: null and undefined elements render as
the empty string. -/
def jsToStringElems : List JSValue → List String
  | [] => []
  | v :: vs =>
    (match v with
     | .vNull => ""
     | .vUndefined => ""
     | w => jsToString w) :: jsToStringElems vs
end

/-- Strip trailing decimal zeros from m / 10 ^ e and collapse to an
integer when the fraction is exact, so that rendering matches
JavaScript number printing. -/
def stripZeros : Int → Nat → JSNum
  | m, 0 => .int m
  | m, e + 1 => if m % 10 == 0 then stripZeros (m / 10) e else .dec m (e + 1)

/-- Split an optional leading sign off a character list. -/
def splitSign : List Char → Int × List Char
  | [] => (1, [])
  | c :: rest =>
    if c == Char.ofNat 45 then (-1, rest)
    else if c == Char.ofNat 43 then (1, rest)
    else (1, c :: rest)

/-- Numeric value of a list of decimal digit characters. -/
def digitsToNat (l : List Char) : Nat :=
  l.foldl (fun acc c => acc * 10 + (c.toNat - 48)) 0

/-- Model of JavaScript parseFloat on the modelled scope (decimal
notation without exponents): skip leading whitespace, read an optional
sign, then the longest prefix of digits, an optional point and further
digits; NaN (None) when no digit was read. -/
def jsParseFloat (s : String) : Option JSNum :=
  let p := splitSign (s.data.dropWhile jsWS)
  let intDigits := p.2.takeWhile Char.isDigit
  let rest := p.2.drop intDigits.length
  let fracDigits :=
    match rest with
    | c :: r2 => if c == Char.ofNat 46 then r2.takeWhile Char.isDigit else []
    | [] => []
  if intDigits.length + fracDigits.length == 0 then none
  else some (stripZeros (p.1 * Int.ofNat (digitsToNat (intDigits ++ fracDigits))) fracDigits.length)

/-- Full-string numeric parse used by the Number() coercion on strings
(decimal notation without exponents); the empty or all-whitespace
string parses as 0, junk gives NaN (None). -/
def parseFullNumber (s : String) : Option JSNum :=
  let t := jsTrim s
  if t == "" then some (.int 0)
  else
    let p := splitSign t.data
    let intDigits := p.2.takeWhile Char.isDigit
    let rest := p.2.drop intDigits.length
    match rest with
    | [] =>
      if intDigits.isEmpty then none
      else some (stripZeros (p.1 * Int.ofNat (digitsToNat intDigits)) 0)
    | c :: r2 =>
      if c == Char.ofNat 46 then
        let fracDigits := r2.takeWhile Char.isDigit
        if !(r2.drop fracDigits.length).isEmpty then none
        else if intDigits.length + fracDigits.length == 0 then none
        else some (stripZeros (p.1 * Int.ofNat (digitsToNat (intDigits ++ fracDigits))) fracDigits.length)
      else none

/-- Model of the JavaScript Number() coercion on modelled values. -/
def jsNumber : JSValue → Option JSNum
  | .vNull => some (.int 0)
  | .vUndefined => none
  | .vBool b => some (.int (if b then 1 else 0))
  | .vNum n => some n
  | .vStr s => parseFullNumber s
  | .vArr l => parseFullNumber (jsToString (.vArr l))
  | .vObj _ => none

/-- Math.floor on a modelled number. -/
def numFloor : JSNum → Int
  | .int i => i
  | .dec m e => Int.fdiv m (Int.ofNat (10 ^ e))

/-- convertToInt from casting.ts: parseFloat for strings, Number for
everything else, 0 on NaN, then Math.floor. -/
def convertToInt (data : JSValue) : JSNum :=
  let num :=
    match data with
    | .vStr s => jsParseFloat s
    | d => jsNumber d
  match num with
  | none => .int 0
  | some n => .int (numFloor n)

/-- convertToBoolean from casting.ts, with the strict-equality table
followed by the typeof chain. -/
def convertToBoolean (data : JSValue) : Bool :=
  if isIntEq data 0 || isStrEq data ("0") || isBoolEq data false || isStrEq data ("false") then false
  else if isIntEq data 1 || isStrEq data ("1") || isBoolEq data true || isStrEq data ("true") then true
  else
    match data with
    | .vStr s => jsTrim s != ""
    | .vArr l => decide (0 < l.length)
    | .vObj _ => true
    | d => jsTruthy d

/-- The wrapper object literal constructed by handleArray for element
casts with a forced element tag. -/
def mkDataAs (item dataAs : JSValue) : JSValue :=
  .vObj [(("data"), item), (("as"), dataAs)]

/-- Object.entries of an array: index keys with the element values. -/
def arrayEntries (l : List JSValue) : List (String × JSValue) :=
  l.enum.map (fun p => (natToString p.1, p.2))

/-- The empty/null check opening casting: null, undefined, the empty
string, the literal string NULL, or an object whose data property is
null while its as property is the string NONE. -/
def isAbsent : JSValue → Bool
  | .vNull => true
  | .vUndefined => true
  | .vStr s => s == "" || s == "NULL"
  | .vObj fs =>
    hasKey fs ("data") && isNullB (getProp fs ("data")) && isStrEq (getProp fs ("as")) ("NONE")
  | _ => false

/-- Extraction of (asName, dataInput, dataAsInput): an object carrying
an as key is the casting-options form; everything else is raw data. -/
def extractOpt (opt : JSValue) : JSValue × JSValue × JSValue :=
  match opt with
  | .vObj fs =>
    if hasKey fs ("as") then (getProp fs ("as"), getProp fs ("data"), getProp fs ("dataAs"))
    else (.vUndefined, opt, .vUndefined)
  | _ => (.vUndefined, opt, .vUndefined)

/-- handleArray from casting.ts, parameterised by the recursive cast
function: each element is cast, wrapped with the forced element tag when
dataAs is truthy, and the results are bracketed and comma-joined. -/
def handleArrayWith (castFn : JSValue → String) (data : List JSValue) (dataAs : JSValue) : String :=
  "[" ++ String.intercalate (", ") (data.map (fun item => castFn (if jsTruthy dataAs then mkDataAs item dataAs else item))) ++ "]"

/-- Entry loop of handleObject: reads value.as (which throws on null or
undefined property values), then casts either the rewrapped data/as pair
or the value itself; entries are processed left to right, and the first
throw aborts the whole object. -/
def handleObjEntries (castFn : JSValue → String) : List (String × JSValue) → Except Unit (List String)
  | [] => .ok []
  | kv :: rest =>
    match getPropE kv.2 ("as") with
    | .error e => .error e
    | .ok av =>
      let s := if jsTruthy av then castFn (mkDataAs (getPropD kv.2 ("data")) av) else castFn kv.2
      match handleObjEntries castFn rest with
      | .error e => .error e
      | .ok restS => .ok ((kv.1 ++ ": " ++ s) :: restS)

/-- handleObject from casting.ts, parameterised by the recursive cast
function. -/
def handleObjectWith (castFn : JSValue → String) (fields : List (String × JSValue)) : Except Unit String :=
  match handleObjEntries castFn fields with
  | .error e => .error e
  | .ok parts => .ok (lbr ++ String.intercalate (", ") parts ++ rbr)

/-- Fuelled body of the casting function of casting.ts; the result is
Except, where error stands for a JavaScript exception escaping to the
try/catch of this call.  Recursive casts made by handleArray and
handleObject are the catching casting function itself, modelled by the
locally defined castFn. -/
def castingF : Nat → JSValue → Except Unit String
  | 0, _ => .error ()
  | fuel + 1, opt =>
    let castFn : JSValue → String := fun v =>
      match castingF fuel v with
      | .ok s => s
      | .error _ => "NONE"
    if isAbsent opt then .ok ("NONE")
    else
      let ext := extractOpt opt
      let asName := ext.1
      let dataInput := ext.2.1
      let dataAsInput := ext.2.2
      if isUndefB dataInput then .ok ("NONE")
      else if jsTruthy asName then
        match asName with
        | .vStr asRaw =>
          let normalizedAs := strToLower asRaw
          if normalizedAs == "array" then
            match dataInput with
            | .vArr items => .ok (handleArrayWith castFn items dataAsInput)
            | _ => .ok ("NONE")
          else if normalizedAs == "object" then
            match dataInput with
            | .vObj fs => handleObjectWith castFn fs
            | .vArr items => handleObjectWith castFn (arrayEntries items)
            | _ => .ok ("NONE")
          else if normalizedAs == "bool" then
            .ok ("<bool>" ++ jsToString (.vBool (convertToBoolean dataInput)))
          else
            match TYPES (strToUpper normalizedAs) with
            | some tag =>
              let converted : JSValue :=
                if normalizedAs == "int" then .vNum (convertToInt dataInput)
                else if normalizedAs == "float" then
                  .vNum ((jsParseFloat (jsToString dataInput)).getD (.int 0))
                else if normalizedAs == "number" then
                  .vNum ((jsNumber dataInput).getD (.int 0))
                else dataInput
              .ok (tag ++ jsToString converted)
            | none => .ok ("NONE")
        | _ => .error ()
      else
        match dataInput with
        | .vArr items => .ok (handleArrayWith castFn items dataAsInput)
        | .vBool b => .ok ("<bool>" ++ jsToString (.vBool b))
        | .vStr s =>
          if isParameter s then .ok s
          else if isDateTime s then .ok ("<datetime>" ++ s)
          else if isRecord s then .ok ("<record>" ++ s)
          else .ok ("<string>" ++ s)
        | .vNum (.int i) => .ok ("<int>" ++ numToString (.int i))
        | .vNum (.dec m e) => .ok ("<float>" ++ numToString (.dec m e))
        | .vObj fs => handleObjectWith castFn fs
        | .vNull => .error ()
        | .vUndefined => .ok ("NONE")

/-- The casting function of casting.ts: the try/catch converts every
escaping exception to the absence sentinel.  The canonical fuel jsSize
strictly exceeds the recursion depth reachable from the input. -/
def casting (opt : JSValue) : String :=
  match castingF (jsSize opt) opt with
  | .ok s => s
  | .error _ => "NONE"

/-- A node of the recursive include tree (RecursiveIncludeOption):
relation name (model), optional alias (as), optional field subset,
optional nested includes. -/
inductive IncludeNode where
  | mk (model : String) (asOpt : Option String) (fieldsOpt : Option (List String)) (incOpt : Option (List IncludeNode))

/-- The expression inc.as || inc.model: a present, non-empty alias,
otherwise the relation name (the JavaScript or-operator treats the
empty-string alias as absent). -/
def IncludeNode.aliasOrModel : IncludeNode → String
  | .mk model asOpt _ _ =>
    match asOpt with
    | some a => if a == "" then model else a
    | none => model

/-- Path construction shared by the flattener and the field collector:
the alias-or-relation name at the root (empty parent path), otherwise
the parent path, a dot and the alias-or-relation name. -/
def pathOf (parentPath : String) (inc : IncludeNode) : String :=
  if parentPath != "" then parentPath ++ "." ++ inc.aliasOrModel else inc.aliasOrModel

mutual
/-- flattenIncludes from the clause helpers: flatMap over the nodes. -/
def flattenIncludes : List IncludeNode → String → List String
  | [], _ => []
  | inc :: rest, parentPath => flattenOne inc parentPath ++ flattenIncludes rest parentPath
/-- Per-node body of flattenIncludes: the node path, followed by the
recursively flattened nested includes when present. -/
def flattenOne : IncludeNode → String → List String
  | .mk m a f incOpt, parentPath =>
    let path := pathOf parentPath (IncludeNode.mk m a f incOpt)
    match incOpt with
    | some children => path :: flattenIncludes children path
    | none => [path]
end

mutual
/-- collectIncludeFields from the clause helpers: flatMap over the
nodes. -/
def collectIncludeFields : List IncludeNode → String → List String
  | [], _ => []
  | inc :: rest, parentPath => collectOne inc parentPath ++ collectIncludeFields rest parentPath
/-- Per-node body of collectIncludeFields: the prefixed field subset of
this node (when a non-empty fields list is present), followed by the
recursively collected fields of the nested includes. -/
def collectOne : IncludeNode → String → List String
  | .mk m a f incOpt, parentPath =>
    let path := pathOf parentPath (IncludeNode.mk m a f incOpt)
    let fieldPaths :=
      match f with
      | some fl => if 0 < fl.length then fl.map (fun fd => path ++ "." ++ fd) else []
      | none => []
    match incOpt with
    | some children => fieldPaths ++ collectIncludeFields children path
    | none => fieldPaths
end

mutual
/-- Number of nodes of an include forest. -/
def countNodes : List IncludeNode → Nat
  | [] => 0
  | inc :: rest => countNode inc + countNodes rest
/-- Number of nodes of a single include tree. -/
def countNode : IncludeNode → Nat
  | .mk _ _ _ incOpt =>
    1 + (match incOpt with
         | some children => countNodes children
         | none => 0)
end

mutual
/-- Pre-order path emission written from the words of the
specification (for the C5 refinement comparison): each node emits its
path, then the recursively emitted paths of its children, siblings left
to right. -/
def preorderPaths : List IncludeNode → String → List String
  | [], _ => []
  | inc :: rest, parentPath => preorderOne inc parentPath ++ preorderPaths rest parentPath
/-- Per-node body of the specification-worded pre-order emission. -/
def preorderOne : IncludeNode → String → List String
  | .mk m a f incOpt, parentPath =>
    let path := pathOf parentPath (IncludeNode.mk m a f incOpt)
    path :: (match incOpt with
             | some children => preorderPaths children path
             | none => [])
end

/-- generateFetchClause from the clause helpers. -/
def generateFetchClause (includeArg : Option (List IncludeNode)) : String :=
  match includeArg with
  | none => ""
  | some incs =>
    if incs.length == 0 then ""
    else
      let fetchPaths := flattenIncludes incs ("")
      if 0 < fetchPaths.length then "FETCH " ++ String.intercalate (", ") fetchPaths else ""

/-- generateWhereClause from the clause helpers: one key = castedValue
fragment per entry, string values with single quotes doubled before the
cast, joined with AND and prefixed with WHERE when non-empty. -/
def generateWhereClause (whereArg : Option (List (String × JSValue))) : String :=
  match whereArg with
  | none => ""
  | some entries =>
    let conditions := entries.map (fun kv =>
      match kv.2 with
      | .vStr s => kv.1 ++ " = " ++ casting (.vStr (escapeQuotes s))
      | .vBool b => kv.1 ++ " = " ++ casting (.vBool b)
      | .vNum n => kv.1 ++ " = " ++ casting (.vNum n)
      | v => kv.1 ++ " = " ++ casting v)
    if 0 < conditions.length then "WHERE " ++ String.intercalate (" AND ") conditions else ""

/-- The order option is a string or an array of strings. -/
inductive OrderArg where
  | single (s : String)
  | multiple (l : List String)

/-- Leading-hyphen test of the order helper (o.startsWith of the
descending marker). -/
def startsWithDash (o : String) : Bool :=
  match o.data with
  | c :: _ => c == Char.ofNat 45
  | [] => false

/-- Model of o.slice(1): the string without its first character. -/
def strDropOne (o : String) : String :=
  match o.data with
  | _ :: rest => String.mk rest
  | [] => ""

/-- Shared body of generateOrderByClause once the option has been
normalised to a list. -/
def orderJoin (orders : List String) : String :=
  let orderStrings := orders.map (fun o =>
    if startsWithDash o then strDropOne o ++ " DESC" else o ++ " ASC")
  if 0 < orderStrings.length then "ORDER BY " ++ String.intercalate (", ") orderStrings else ""

/-- generateOrderByClause from the clause helpers; the empty-string
order value is falsy in JavaScript and yields the empty clause. -/
def generateOrderByClause (order : Option OrderArg) : String :=
  match order with
  | none => ""
  | some (OrderArg.single s) => if s == "" then "" else orderJoin [s]
  | some (OrderArg.multiple l) => orderJoin l

/-- generateLimitOffsetClause from the clause helpers: a START fragment
when the offset is a number, then a LIMIT fragment when the limit is a
number, trimmed. -/
def generateLimitOffsetClause (limit offset : Option JSNum) : String :=
  let clause :=
    (match offset with
     | some o => "START " ++ numToString o ++ " "
     | none => "") ++
    (match limit with
     | some l => "LIMIT " ++ numToString l
     | none => "")
  jsTrim clause

/-- Truthiness of an optional string option. -/
def strOptTruthy (o : Option String) : Bool :=
  match o with
  | some s => s != ""
  | none => false

/-- SelectOptionsI: the options object of the select generators. -/
structure SelectOptionsI where
  fields : Option (List String)
  whereArg : Option (List (String × JSValue))
  order : Option OrderArg
  limit : Option JSNum
  offset : Option JSNum
  includeArg : Option (List IncludeNode)
  surrealql : Option String

/-- Optional-chaining access on the optional options argument. -/
def optField {α : Type} (options : Option SelectOptionsI) (f : SelectOptionsI → Option α) : Option α :=
  match options with
  | some o => f o
  | none => none

/-- Field list shared by both select generators: the explicit fields
when present and non-empty, followed by the field paths collected from
the includes; the default projection star when both are empty. -/
def selectFieldsOf (options : Option SelectOptionsI) : String :=
  let selectFields : List String :=
    (match optField options SelectOptionsI.fields with
     | some fs => if 0 < fs.length then fs else []
     | none => []) ++
    (match optField options SelectOptionsI.includeArg with
     | some incs => collectIncludeFields incs ("")
     | none => [])
  if 0 < selectFields.length then String.intercalate (", ") selectFields else "*"

/-- generateFindAllQuery from find_all_generation.ts. -/
def generateFindAllQuery (table : String) (options : Option SelectOptionsI) : String :=
  let fields := selectFieldsOf options
  let fetchClause := generateFetchClause (optField options SelectOptionsI.includeArg)
  let sqlT := strOptTruthy (optField options SelectOptionsI.surrealql)
  let whereClause := if !sqlT then generateWhereClause (optField options SelectOptionsI.whereArg) else ""
  let orderClause := if !sqlT then generateOrderByClause (optField options SelectOptionsI.order) else ""
  let limitClause := if !sqlT then generateLimitOffsetClause (optField options SelectOptionsI.limit) (optField options SelectOptionsI.offset) else ""
  let customClause :=
    match optField options SelectOptionsI.surrealql with
    | some s => if s != "" then jsTrim s else ""
    | none => ""
  "SELECT " ++ fields ++ " FROM " ++ table ++ " " ++
    (if customClause != "" then customClause
     else String.intercalate (" ") (([whereClause, orderClause, limitClause, fetchClause]).filter (fun c => c != ""))) ++ ";"

/-- generateFindOneQuery from find_all_generation.ts: LIMIT 1 is
computed unless the raw override matches the limit regex, and the raw
override (when truthy after trimming) replaces all generated clauses. -/
def generateFindOneQuery (table : String) (options : Option SelectOptionsI) : String :=
  let fields := selectFieldsOf options
  let fetchClause := generateFetchClause (optField options SelectOptionsI.includeArg)
  let sqlT := strOptTruthy (optField options SelectOptionsI.surrealql)
  let whereClause := if !sqlT then generateWhereClause (optField options SelectOptionsI.whereArg) else ""
  let limitClause :=
    if !sqlT then "LIMIT 1"
    else
      match optField options SelectOptionsI.surrealql with
      | some s => if !(hasLimitNum s) then "LIMIT 1" else ""
      | none => "LIMIT 1"
  let customClause :=
    match optField options SelectOptionsI.surrealql with
    | some s => if s != "" then jsTrim s else ""
    | none => ""
  "SELECT " ++ fields ++ " FROM " ++ table ++ " " ++
    (if customClause != "" then customClause
     else String.intercalate (" ") (([whereClause, limitClause, fetchClause]).filter (fun c => c != ""))) ++ ";"

mutual
/-- Model of JSON.stringify on modelled values; None is the undefined
result (for the undefined value). -/
def jsonStringify : JSValue → Option String
  | .vNull => some ("null")
  | .vUndefined => none
  | .vBool b => some (if b then "true" else "false")
  | .vNum n => some (numToString n)
  | .vStr s => some (quoteJSON s)
  | .vArr l => some ("[" ++ String.intercalate (",") (jsonArrElems l) ++ "]")
  | .vObj fs => some (lbr ++ String.intercalate (",") (jsonObjMembers fs) ++ rbr)
/-- Array elements under JSON.stringify: undefined renders as null. -/
def jsonArrElems : List JSValue → List String
  | [] => []
  | v :: vs =>
    (match jsonStringify v with
     | some s => s
     | none => "null") :: jsonArrElems vs
/-- Object members under JSON.stringify: undefined-valued properties
are skipped. -/
def jsonObjMembers : List (String × JSValue) → List String
  | [] => []
  | kv :: fs =>
    match jsonStringify kv.2 with
    | some s => (quoteJSON kv.1 ++ ":" ++ s) :: jsonObjMembers fs
    | none => jsonObjMembers fs
end

/-- Truthiness of the optional id option (the empty string is falsy). -/
def idTruthy (id : Option String) : Bool :=
  match id with
  | some i => i != ""
  | none => false

/-- Object.entries on an arbitrary value: throws on null and undefined,
gives the fields of objects, index entries for arrays and strings, and
the empty list for other primitives. -/
def jsObjectEntries : JSValue → Except Unit (List (String × JSValue))
  | .vNull => .error ()
  | .vUndefined => .error ()
  | .vObj fs => .ok fs
  | .vArr l => .ok (arrayEntries l)
  | .vStr s => .ok (s.data.enum.map (fun p => (natToString p.1, .vStr (String.singleton p.2))))
  | _ => .ok []

/-- UpdateOptionsI: the options object of the update generator. -/
structure UpdateOptionsI where
  data : JSValue
  id : Option String
  content : Option Bool
  whereArg : Option (List (String × JSValue))
  surrealql : Option String

/-- The SET clause list of the update generator: the first record when
the data is an array, then one key = value fragment per entry, strings
single-quoted with quote doubling, other values via JSON.stringify. -/
def setClauses (data : JSValue) : Except Unit String :=
  let d :=
    match data with
    | .vArr l =>
      (match l.head? with
       | some h => h
       | none => .vUndefined)
    | other => other
  match jsObjectEntries d with
  | .error e => .error e
  | .ok entries =>
    .ok (String.intercalate (", ") (entries.map (fun kv =>
      match kv.2 with
      | .vStr s => kv.1 ++ " = " ++ sqstr ++ escapeQuotes s ++ sqstr
      | v => kv.1 ++ " = " ++ (match jsonStringify v with
                               | some j => j
                               | none => "undefined"))))

/-- Body of the update query: CONTENT by default (content not
explicitly false), SET otherwise. -/
def updateBodyE (options : UpdateOptionsI) : Except Unit String :=
  if options.content != some false then
    .ok ("CONTENT " ++ (match jsonStringify options.data with
                        | some j => j
                        | none => "undefined"))
  else
    match setClauses options.data with
    | .error e => .error e
    | .ok s => .ok ("SET " ++ s)

/-- generateUpdateQuery from update_generation.js; Except models the
exception thrown by Object.entries on a null or undefined data record
in SET mode. -/
def generateUpdateQuery (table : String) (options : UpdateOptionsI) : Except Unit String :=
  if strOptTruthy options.surrealql then
    .ok (jsTrim (match options.surrealql with
                 | some s => s
                 | none => ""))
  else
    let target :=
      if idTruthy options.id then
        table ++ ":" ++ (match options.id with
                         | some i => i
                         | none => "")
      else table
    match updateBodyE options with
    | .error e => .error e
    | .ok body =>
      let query := "UPDATE " ++ target ++ " " ++ body
      let query :=
        if !(idTruthy options.id) then
          match options.whereArg with
          | some w =>
            let wc := generateWhereClause (some w)
            if wc != "" then query ++ " " ++ wc else query
          | none => query
        else query
      .ok (query ++ ";")

/-- Decidable equality for the exception-carrying query results. -/
instance : DecidableEq (Except Unit String) := fun a b =>
  match a, b with
  | .ok x, .ok y =>
    if h : x = y then isTrue (by rw [h]) else isFalse (by simp [h])
  | .error x, .error y => isTrue (by cases x; cases y; rfl)
  | .ok _, .error _ => isFalse (by simp)
  | .error _, .ok _ => isFalse (by simp)

/-- DeleteOptionsI: the options object of the delete generator. -/
structure DeleteOptionsI where
  id : Option String
  whereArg : Option (List (String × JSValue))
  surrealql : Option String

/-- generateDeleteQuery from update_generation.js. -/
def generateDeleteQuery (table : String) (options : DeleteOptionsI) : String :=
  if strOptTruthy options.surrealql then
    jsTrim (match options.surrealql with
            | some s => s
            | none => "")
  else
    let target :=
      if idTruthy options.id then
        table ++ ":" ++ (match options.id with
                         | some i => i
                         | none => "")
      else table
    let query := "DELETE " ++ target
    let query :=
      if !(idTruthy options.id) then
        match options.whereArg with
        | some w =>
          let wc := generateWhereClause (some w)
          if wc != "" then query ++ " " ++ wc else query
        | none => query
      else query
    query ++ ";"

/-- Boolean edge test: the string neither starts nor ends with a
whitespace character. -/
def noEdgeWhitespace (s : String) : Bool :=
  (match s.data with
   | [] => true
   | c :: _ => !(jsWS c)) &&
  (match s.data.getLast? with
   | none => true
   | some c => !(jsWS c))

/-- The WHERE helper pre-cast transformation the code actually applies:
string values have their single quotes doubled, all other values pass
unchanged (used to state the amended C3). -/
def whereCast : JSValue → JSValue
  | .vStr s => .vStr (escapeQuotes s)
  | v => v

/-- A name containing a single quote, for the C3 counterexample. -/
def oBrienName : String := "O" ++ sqstr ++ "Brien"

/-- The explicit bool-tag invocation of the Caster: the options object
with the given data and the as tag bool. -/
def mkBoolW (v : JSValue) : JSValue :=
  .vObj [(("data"), v), (("as"), .vStr ("bool"))]

/-
Lemmas and claim theorems.
-/

mutual
/-- The flattener emits exactly one path per node: forest version. -/
theorem flattenIncludes_length : ∀ (l : List IncludeNode) (p : String), (flattenIncludes l p).length = countNodes l
  | [], _ => rfl
  | inc :: rest, p => by
    simp only [flattenIncludes, countNodes, List.length_append,
      flattenOne_length inc p, flattenIncludes_length rest p]
/-- The flattener emits exactly one path per node: tree version. -/
theorem flattenOne_length : ∀ (inc : IncludeNode) (p : String), (flattenOne inc p).length = countNode inc
  | .mk m a f incOpt, p => by
    cases incOpt with
    | none => rfl
    | some children =>
      simp only [flattenOne, countNode, List.length_cons,
        flattenIncludes_length children (pathOf p (IncludeNode.mk m a f (some children)))]
      omega
end

mutual
/-- The flattener equals the specification-worded pre-order emission:
forest version. -/
theorem flattenIncludes_eq_preorder : ∀ (l : List IncludeNode) (p : String), flattenIncludes l p = preorderPaths l p
  | [], _ => rfl
  | inc :: rest, p => by
    simp only [flattenIncludes, preorderPaths,
      flattenOne_eq_preorder inc p, flattenIncludes_eq_preorder rest p]
/-- The flattener equals the specification-worded pre-order emission:
tree version. -/
theorem flattenOne_eq_preorder : ∀ (inc : IncludeNode) (p : String), flattenOne inc p = preorderOne inc p
  | .mk m a f incOpt, p => by
    cases incOpt with
    | none => rfl
    | some children =>
      simp only [flattenOne, preorderOne,
        flattenIncludes_eq_preorder children (pathOf p (IncludeNode.mk m a f (some children)))]
end

/-- C1: selectMany on table user with fields id and name, filter
active = true, order -age, limit 2 and no other options produces
exactly SELECT id, name FROM user WHERE active = boolean-tagged true
ORDER BY age DESC LIMIT 2 with a single trailing semicolon — fields in
the given order and clauses in the fixed order WHERE, ORDER BY,
LIMIT/OFFSET, FETCH. -/
theorem C1_selectMany_example :
    generateFindAllQuery ("user") (some (SelectOptionsI.mk (some [("id"), ("name")]) (some [(("active"), .vBool true)]) (some (OrderArg.multiple [("-age")])) (some (.int 2)) none none none)) =
      "SELECT id, name FROM user WHERE active = <bool>true ORDER BY age DESC LIMIT 2;" := by
  decide

/-- C2: the claim says every select-one query contains LIMIT 1 unless
the raw override already specifies a limit (checked by the
case-insensitive limit-digits pattern).  The code computes that
LIMIT 1 clause but then discards it whenever a non-empty raw override
is present, because the override replaces the whole generated clause
list; this contradicts the source comment announcing that the limit is
added in that case.  Evidence: the override WHERE active = true does
not match the limit pattern, yet the generated query contains no LIMIT
fragment at all; without an override LIMIT 1 is present. -/
theorem C2_findOne_limit_dropped_with_override :
    hasLimitNum ("WHERE active = true") = false ∧
    generateFindOneQuery ("user") (some (SelectOptionsI.mk none none none none none none (some ("WHERE active = true")))) =
      "SELECT * FROM user WHERE active = true;" ∧
    containsSub ("LIMIT") ("SELECT * FROM user WHERE active = true;") = false ∧
    generateFindOneQuery ("user") none = "SELECT * FROM user LIMIT 1;" := by
  refine ⟨by decide, by decide, by decide, by decide⟩

/-- C5: the include flattener emits exactly one dot-separated path per
node (the output length equals the node count), the output is the
specification-worded pre-order emission (node before children, siblings
left to right), and the path of a node is its alias-or-relation name at
the root and otherwise the parent path, a dot and the
alias-or-relation name. -/
theorem C5_flattener_preorder :
    (∀ (l : List IncludeNode) (p : String), (flattenIncludes l p).length = countNodes l) ∧
    (∀ (l : List IncludeNode) (p : String), flattenIncludes l p = preorderPaths l p) ∧
    (∀ inc : IncludeNode, pathOf ("") inc = inc.aliasOrModel) ∧
    (∀ (p : String) (inc : IncludeNode), p ≠ "" → pathOf p inc = p ++ "." ++ inc.aliasOrModel) := by
  refine ⟨flattenIncludes_length, flattenIncludes_eq_preorder, ?_, ?_⟩
  · intro inc; rfl
  · intro p inc hp
    simp [pathOf, hp]

/-- C5 witness: the path construction at the non-root parent path a and
a node named b. -/
theorem C5_flattener_preorder_witness :
    (("a" : String) ≠ "") ∧
    pathOf ("a") (IncludeNode.mk ("b") none none none) = "a" ++ "." ++ (IncludeNode.mk ("b") none none none).aliasOrModel :=
  ⟨by decide, C5_flattener_preorder.2.2.2 ("a") (IncludeNode.mk ("b") none none none) (by decide)⟩

/-- C3 counterexample: for a string value containing a single quote the
emitted literal is the cast of the quote-doubled string, not the cast
of the value itself, so the fragment is not exactly the Caster output
for the entry value. -/
theorem C3_whereClause_counterexample :
    generateWhereClause (some [(("name"), .vStr oBrienName)]) ≠
      "WHERE " ++ "name" ++ " = " ++ casting (.vStr oBrienName) ∧
    generateWhereClause (some [(("name"), .vStr oBrienName)]) =
      "WHERE name = <string>O" ++ sqstr ++ sqstr ++ "Brien" := by
  refine ⟨by decide, by decide⟩

/-- C3 amended: the WHERE helper yields the empty string for an absent
or empty filter map, and otherwise one fragment key = castedLiteral per
entry joined with AND and prefixed with WHERE, where the casted literal
is the Caster output of the quote-doubled string for string values and
of the value itself for every other runtime type. -/
theorem C3_whereClause_amended :
    generateWhereClause none = "" ∧
    generateWhereClause (some []) = "" ∧
    (∀ (k : String) (v : JSValue) (rest : List (String × JSValue)),
      generateWhereClause (some ((k, v) :: rest)) =
        "WHERE " ++ String.intercalate (" AND ")
          (((k, v) :: rest).map (fun kv => kv.1 ++ " = " ++ casting (whereCast kv.2)))) := by
  refine ⟨rfl, rfl, ?_⟩
  intro k v rest
  simp only [generateWhereClause]
  rw [show List.map _ ((k, v) :: rest) =
        List.map (fun kv => kv.1 ++ " = " ++ casting (whereCast kv.2)) ((k, v) :: rest) from
      List.map_congr_left (fun a _ => by rcases a with ⟨k2, v2⟩; cases v2 <;> rfl)]
  simp

/-- C4: the Caster is total on modelled values and never lets an
exception escape: null, undefined, the empty string and the explicit
absence form all yield the sentinel NONE, and whenever the internal
(exception-carrying) computation ends in an error, the Caster returns
NONE instead of propagating it. -/
theorem C4_caster_totality :
    casting .vNull = "NONE" ∧
    casting .vUndefined = "NONE" ∧
    casting (.vStr ("")) = "NONE" ∧
    casting (.vObj [(("data"), .vNull), (("as"), .vStr ("NONE"))]) = "NONE" ∧
    (∀ (v : JSValue) (e : Unit), castingF (jsSize v) v = Except.error e → casting v = "NONE") := by
  refine ⟨by decide, by decide, by decide, by decide, ?_⟩
  intro v e h
  unfold casting
  rw [h]

/-- C4 witness: an object with a null-valued property makes the
internal computation throw, and the Caster converts that to NONE. -/
theorem C4_caster_totality_witness :
    casting (.vObj [(("k"), .vNull)]) = "NONE" :=
  C4_caster_totality.2.2.2.2 (.vObj [(("k"), .vNull)]) () (by decide)

/-- The WHERE clause generated from a non-empty filter map is never the
empty string. -/
theorem whereClause_cons_ne_empty (kv : String × JSValue) (rest : List (String × JSValue)) :
    generateWhereClause (some (kv :: rest)) ≠ "" := by
  simp only [generateWhereClause, List.map_cons, List.length_cons, Nat.zero_lt_succ, if_pos]
  intro hc
  have hlen := congrArg String.length hc
  simp [String.length_append] at hlen
  exact absurd hlen.1 (by decide)

/-- C6 counterexample: the empty string is a supplied identifier, yet
the update generator treats it as absent (JavaScript truthiness), emits
the WHERE clause from the also-supplied filter map, and targets the
bare table rather than table-colon-id. -/
theorem C6_update_empty_id_counterexample :
    generateUpdateQuery ("user") (UpdateOptionsI.mk (.vObj [(("a"), .vNum (.int 1))]) (some ("")) none (some [(("a"), .vNum (.int 1))]) none) =
      .ok ("UPDATE user CONTENT " ++ lbr ++ dq ++ "a" ++ dq ++ ":1" ++ rbr ++ " WHERE a = <int>1;") := by
  decide

/-- C6 amended: in the update and delete generators without a raw
override, a NON-EMPTY identifier and a where map are mutually exclusive
selection modes with the identifier winning: with a non-empty id no
WHERE clause is emitted even when a where map is supplied, and the
target is the table name and the id concatenated directly with a colon
(no Caster involved); with a falsy id (absent or empty) a supplied
non-empty where map produces the WHERE clause. -/
theorem C6_update_delete_modes_amended :
    (∀ (table i : String) (data : JSValue) (content : Option Bool) (w : Option (List (String × JSValue))),
      i ≠ "" →
      generateUpdateQuery table (UpdateOptionsI.mk data (some i) content w none) =
        Except.map (fun body => "UPDATE " ++ table ++ ":" ++ i ++ " " ++ body ++ ";")
          (updateBodyE (UpdateOptionsI.mk data (some i) content w none))) ∧
    (∀ (table : String) (data : JSValue) (content : Option Bool) (kv : String × JSValue)
        (rest : List (String × JSValue)) (id0 : Option String),
      idTruthy id0 = false →
      generateUpdateQuery table (UpdateOptionsI.mk data id0 content (some (kv :: rest)) none) =
        Except.map (fun body => "UPDATE " ++ table ++ " " ++ body ++ " " ++ generateWhereClause (some (kv :: rest)) ++ ";")
          (updateBodyE (UpdateOptionsI.mk data id0 content (some (kv :: rest)) none))) ∧
    (∀ (table i : String) (w : Option (List (String × JSValue))),
      i ≠ "" →
      generateDeleteQuery table (DeleteOptionsI.mk (some i) w none) = "DELETE " ++ table ++ ":" ++ i ++ ";") ∧
    (∀ (table : String) (kv : String × JSValue) (rest : List (String × JSValue)) (id0 : Option String),
      idTruthy id0 = false →
      generateDeleteQuery table (DeleteOptionsI.mk id0 (some (kv :: rest)) none) =
        "DELETE " ++ table ++ " " ++ generateWhereClause (some (kv :: rest)) ++ ";") := by
  refine ⟨?_, ?_, ?_, ?_⟩
  · intro table i data content w hi
    have hid : idTruthy (some i) = true := by simp [idTruthy, hi]
    cases hb : updateBodyE (UpdateOptionsI.mk data (some i) content w none) with
    | error e =>
      simp [generateUpdateQuery, strOptTruthy, hb, Except.map]
    | ok body =>
      simp [generateUpdateQuery, strOptTruthy, hb, hid, Except.map, String.append_assoc]
  · intro table data content kv rest id0 hid
    have hwc := whereClause_cons_ne_empty kv rest
    cases hb : updateBodyE (UpdateOptionsI.mk data id0 content (some (kv :: rest)) none) with
    | error e =>
      simp [generateUpdateQuery, strOptTruthy, hb, Except.map]
    | ok body =>
      simp [generateUpdateQuery, strOptTruthy, hb, hid, hwc, Except.map, String.append_assoc]
  · intro table i w hi
    have hid : idTruthy (some i) = true := by simp [idTruthy, hi]
    simp [generateDeleteQuery, strOptTruthy, hid, String.append_assoc]
  · intro table kv rest id0 hid
    have hwc := whereClause_cons_ne_empty kv rest
    simp [generateDeleteQuery, strOptTruthy, hid, hwc, String.append_assoc]

/-- C6 witness: the amended theorem applied at a concrete non-empty id
for update, showing the colon-joined target and the absence of the
supplied WHERE map from the result. -/
theorem C6_update_delete_modes_amended_witness :
    (("7" : String) ≠ "") ∧
    generateUpdateQuery ("user") (UpdateOptionsI.mk (.vObj [(("a"), .vNum (.int 1))]) (some ("7")) none (some [(("a"), .vNum (.int 1))]) none) =
      .ok ("UPDATE user:7 CONTENT " ++ lbr ++ dq ++ "a" ++ dq ++ ":1" ++ rbr ++ ";") :=
  ⟨by decide,
   (C6_update_delete_modes_amended.1 ("user") ("7") (.vObj [(("a"), .vNum (.int 1))]) none (some [(("a"), .vNum (.int 1))]) (by decide)).trans (by decide)⟩

/-- Casting with the explicit bool tag reduces to convertToBoolean for
every defined data value. -/
theorem casting_mkBoolW : ∀ v : JSValue, isUndefB v = false →
    casting (mkBoolW v) = "<bool>" ++ jsToString (.vBool (convertToBoolean v)) := by
  intro v hv
  cases v <;> first
  | rfl
  | simp [isUndefB] at hv

/-- C7 counterexample: a whitespace-only string is non-empty, yet the
bool cast yields the boolean-tagged false, because the implementation
trims the string before the emptiness test; the claim predicts true for
every non-empty other string. -/
theorem C7_bool_counterexample :
    ((" " : String) ≠ "") ∧
    casting (mkBoolW (.vStr (" "))) = "<bool>false" ∧
    casting (mkBoolW (.vStr (" "))) ≠ "<bool>true" := by
  refine ⟨by decide, by decide, by decide⟩

/-- C7 amended: with the explicit bool tag, the inputs 0, the string 0,
false and the string false cast to the boolean-tagged false and 1, the
string 1, true and the string true cast to the boolean-tagged true;
any other string casts to true exactly when it is non-empty AFTER
TRIMMING WHITESPACE; an array casts to true exactly when it is
non-empty; and every plain object casts to true. -/
theorem C7_bool_casting_amended :
    casting (mkBoolW (.vNum (.int 0))) = "<bool>false" ∧
    casting (mkBoolW (.vStr ("0"))) = "<bool>false" ∧
    casting (mkBoolW (.vBool false)) = "<bool>false" ∧
    casting (mkBoolW (.vStr ("false"))) = "<bool>false" ∧
    casting (mkBoolW (.vNum (.int 1))) = "<bool>true" ∧
    casting (mkBoolW (.vStr ("1"))) = "<bool>true" ∧
    casting (mkBoolW (.vBool true)) = "<bool>true" ∧
    casting (mkBoolW (.vStr ("true"))) = "<bool>true" ∧
    (∀ s : String, s ≠ "0" → s ≠ "1" → s ≠ "false" → s ≠ "true" →
      casting (mkBoolW (.vStr s)) = (if jsTrim s = "" then "<bool>false" else "<bool>true")) ∧
    casting (mkBoolW (.vArr [])) = "<bool>false" ∧
    (∀ (v0 : JSValue) (l : List JSValue), casting (mkBoolW (.vArr (v0 :: l))) = "<bool>true") ∧
    (∀ fs : List (String × JSValue), casting (mkBoolW (.vObj fs)) = "<bool>true") := by
  refine ⟨by decide, by decide, by decide, by decide, by decide, by decide, by decide, by decide, ?_, by decide, ?_, ?_⟩
  · intro s h0 h1 hf ht
    rw [casting_mkBoolW (.vStr s) rfl]
    have hcb : convertToBoolean (.vStr s) = (jsTrim s != "") := by
      simp [convertToBoolean, isIntEq, isStrEq, isBoolEq, h0, h1, hf, ht]
    rw [hcb]
    by_cases he : jsTrim s = "" <;> simp [jsToString, he]
  · intro v0 l
    rw [casting_mkBoolW (.vArr (v0 :: l)) rfl]
    simp [convertToBoolean, isIntEq, isStrEq, isBoolEq, jsToString]
  · intro fs
    exact (casting_mkBoolW (.vObj fs) rfl).trans rfl

/-- C7 witness: the amended string rule applied at the concrete other
string xy, which is non-empty after trimming. -/
theorem C7_bool_casting_amended_witness :
    casting (mkBoolW (.vStr ("xy"))) = "<bool>true" :=
  (C7_bool_casting_amended.2.2.2.2.2.2.2.2.1 ("xy") (by decide) (by decide) (by decide) (by decide)).trans (by decide)

/-- A key the object does not carry reads as undefined. -/
theorem getProp_of_hasKey_false (fs : List (String × JSValue)) (k : String)
    (h : hasKey fs k = false) : getProp fs k = .vUndefined := by
  unfold getProp
  cases hf : fs.find? (fun kv => kv.1 == k) with
  | none => rfl
  | some kv =>
    exfalso
    unfold hasKey at h
    rw [hf] at h
    simp at h

/-- The entry loop of handleObject throws (errors) whenever some entry
value is null or undefined, whatever the recursive cast function is:
the property read value.as on that entry throws. -/
theorem handleObjEntries_error (castFn : JSValue → String) :
    ∀ fs : List (String × JSValue), fs.any (fun kv => nullOrUndef kv.2) = true →
      handleObjEntries castFn fs = .error () := by
  intro fs
  induction fs with
  | nil => intro h; simp at h
  | cons kv rest ih =>
    intro h
    rw [List.any_cons] at h
    rcases kv with ⟨k2, v2⟩
    cases hn : nullOrUndef v2 with
    | true =>
      cases v2 <;> first
      | rfl
      | simp [nullOrUndef] at hn
    | false =>
      have hrest : rest.any (fun kv => nullOrUndef kv.2) = true := by
        rw [hn] at h
        simpa using h
      cases v2 <;> simp [handleObjEntries, getPropE, ih hrest]

/-- C8: a plain object (one not carrying the options key as) with at
least one null- or undefined-valued property collapses entirely to the
absence sentinel NONE, both when cast directly and under the explicit
object tag: the property-tag lookup on the null value throws and the
whole cast is caught as NONE, rather than producing an object literal
with a NONE member. -/
theorem C8_object_null_property_collapses :
    (∀ fs : List (String × JSValue),
      fs.any (fun kv => nullOrUndef kv.2) = true →
      hasKey fs ("as") = false →
      casting (.vObj fs) = "NONE") ∧
    (∀ fs : List (String × JSValue),
      fs.any (fun kv => nullOrUndef kv.2) = true →
      casting (.vObj [(("data"), .vObj fs), (("as"), .vStr ("object"))]) = "NONE") := by
  constructor
  · intro fs hany hkey
    have hgp : getProp fs ("as") = .vUndefined := getProp_of_hasKey_false fs ("as") hkey
    unfold casting
    rw [show jsSize (.vObj fs) = jsSizeFields fs + 1 + 1 from rfl]
    simp only [castingF]
    simp [isAbsent, hgp, isStrEq, extractOpt, hkey, isUndefB, jsTruthy,
      handleObjectWith, handleObjEntries_error _ fs hany]
  · intro fs hany
    show (match handleObjectWith (fun v => match castingF (jsSizeFields fs + 6) v with
            | .ok s => s
            | .error _ => "NONE") fs with
          | .ok s => s
          | .error _ => "NONE") = "NONE"
    rw [handleObjectWith, handleObjEntries_error _ fs hany]

/-- C8 witness: both routes applied at the single-property object whose
value is null. -/
theorem C8_object_null_property_collapses_witness :
    casting (.vObj [(("k"), .vNull)]) = "NONE" ∧
    casting (.vObj [(("data"), .vObj [(("k"), .vNull)]), (("as"), .vStr ("object"))]) = "NONE" :=
  ⟨C8_object_null_property_collapses.1 [(("k"), .vNull)] (by decide) (by decide),
   C8_object_null_property_collapses.2 [(("k"), .vNull)] (by decide)⟩

/-- C9: tag inference marks a string as a datetime literal only when it
matches the fixed 24-character pattern — four digits, hyphen, two
digits, hyphen, two digits, T, two digits, colon, two digits, colon,
two digits, ANY single character, exactly three digits, Z — so the
fractional-seconds-free ISO string 2023-10-01T12:34:56Z is tagged as a
plain string literal, while a variant with any separator before three
fractional digits is a datetime. -/
theorem C9_datetime_inference :
    isDateTime ("2023-10-01T12:34:56.123Z") = true ∧
    isDateTime ("2023-10-01T12:34:56q123Z") = true ∧
    isDateTime ("2023-10-01T12:34:56Z") = false ∧
    isDateTime ("2023-10-01T12:34:56.12Z") = false ∧
    casting (.vStr ("2023-10-01T12:34:56Z")) = "<string>2023-10-01T12:34:56Z" ∧
    (∀ s : String, casting (.vStr s) = "<datetime>" ++ s → isDateTime s = true) := by
  refine ⟨by decide, by decide, by decide, by decide, by decide, ?_⟩
  intro s h
  unfold casting at h
  rw [show jsSize (.vStr s) = 0 + 1 from rfl] at h
  simp only [castingF] at h
  simp only [isAbsent, extractOpt, isUndefB, jsTruthy, Bool.false_eq_true, if_false] at h
  split at h
  · -- the internal computation returned ok sres and h : sres = <datetime> ++ s
    rename_i sres heq
    subst h
    split at heq
    · -- absence branch: ok NONE
      exfalso
      injection heq with heq2
      have hl := congrArg String.length heq2
      rw [String.length_append] at hl
      have e1 : ("NONE" : String).length = 4 := by decide
      have e2 : ("<datetime>" : String).length = 10 := by decide
      rw [e1, e2] at hl
      omega
    · split at heq
      · -- parameter branch: ok s
        exfalso
        injection heq with heq2
        have hl := congrArg String.length heq2
        rw [String.length_append] at hl
        have e2 : ("<datetime>" : String).length = 10 := by decide
        rw [e2] at hl
        omega
      · split at heq
        · -- datetime branch
          assumption
        · split at heq
          · -- record branch
            exfalso
            injection heq with heq2
            have hl := congrArg String.length heq2
            rw [String.length_append, String.length_append] at hl
            have e1 : ("<record>" : String).length = 8 := by decide
            have e2 : ("<datetime>" : String).length = 10 := by decide
            rw [e1, e2] at hl
            omega
          · -- plain string branch
            exfalso
            injection heq with heq2
            have hl := congrArg String.length heq2
            rw [String.length_append, String.length_append] at hl
            have e1 : ("<string>" : String).length = 8 := by decide
            have e2 : ("<datetime>" : String).length = 10 := by decide
            rw [e1, e2] at hl
            omega
  · -- the internal computation returned an error and h : NONE = <datetime> ++ s
    exfalso
    have hl := congrArg String.length h
    rw [String.length_append] at hl
    have e1 : ("NONE" : String).length = 4 := by decide
    have e2 : ("<datetime>" : String).length = 10 := by decide
    rw [e1, e2] at hl
    omega

/-- C9 witness: the only-when direction applied at a concrete string
that the Caster does tag as a datetime. -/
theorem C9_datetime_inference_witness :
    isDateTime ("2023-10-01T12:34:56.123Z") = true :=
  C9_datetime_inference.2.2.2.2.2 ("2023-10-01T12:34:56.123Z") (by decide)

/-- No digit character is whitespace. -/
theorem digitChar_not_ws : ∀ n : Nat, (digitChar n).isWhitespace = false
  | 0 => by decide
  | 1 => by decide
  | 2 => by decide
  | 3 => by decide
  | 4 => by decide
  | 5 => by decide
  | 6 => by decide
  | 7 => by decide
  | 8 => by decide
  | 9 => by decide
  | n + 10 => show (Char.ofNat 42).isWhitespace = false from by decide

/-- The digit loop emits no whitespace characters when the accumulator
holds none. -/
theorem natDigAux_not_ws : ∀ (f n : Nat) (acc : List Char),
    (∀ c ∈ acc, c.isWhitespace = false) → ∀ c ∈ natDigAux f n acc, c.isWhitespace = false := by
  intro f
  induction f with
  | zero => intro n acc h c hc; rw [natDigAux] at hc; exact h c hc
  | succ f ih =>
    intro n acc h c hc
    rw [natDigAux] at hc
    split at hc
    · rcases List.mem_cons.mp hc with h1 | h2
      · subst h1; exact digitChar_not_ws n
      · exact h c h2
    · refine ih (n / 10) _ ?_ c hc
      intro c2 hc2
      rcases List.mem_cons.mp hc2 with h1 | h2
      · subst h1; exact digitChar_not_ws (n % 10)
      · exact h c2 h2

/-- The digit loop never returns the empty list from a non-empty
accumulator. -/
theorem natDigAux_ne_nil_of_acc : ∀ (f n : Nat) (acc : List Char), acc ≠ [] → natDigAux f n acc ≠ [] := by
  intro f
  induction f with
  | zero => intro n acc h; rw [natDigAux]; exact h
  | succ f ih =>
    intro n acc h
    rw [natDigAux]
    split
    · simp
    · exact ih (n / 10) _ (by simp)

/-- The rendering of a natural number is never empty. -/
theorem natToString_data_ne_nil (n : Nat) : (natToString n).data ≠ [] := by
  show natDigAux (n + 1) n [] ≠ []
  rw [natDigAux]
  split
  · simp
  · exact natDigAux_ne_nil_of_acc n (n / 10) _ (by simp)

/-- The decimal-point digit list contains no whitespace characters. -/
theorem decDigits_not_ws (m e : Nat) : ∀ c ∈ decDigits m e, c.isWhitespace = false := by
  intro c hc
  unfold decDigits at hc
  set ds0 := natDigAux (m + 1) m [] with hds0
  have hds0mem : ∀ c2 ∈ ds0, c2.isWhitespace = false :=
    natDigAux_not_ws (m + 1) m [] (by intro c2 hc2; simp at hc2)
  set padded := if ds0.length < e + 1 then List.replicate (e + 1 - ds0.length) (digitChar 0) ++ ds0 else ds0 with hpad
  have hpadmem : ∀ c2 ∈ padded, c2.isWhitespace = false := by
    intro c2 hc2
    rw [hpad] at hc2
    split at hc2
    · rcases List.mem_append.mp hc2 with h1 | h2
      · rw [List.eq_of_mem_replicate h1]; exact digitChar_not_ws 0
      · exact hds0mem c2 h2
    · exact hds0mem c2 hc2
  rcases List.mem_append.mp hc with h1 | h2
  · exact hpadmem c (List.mem_of_mem_take h1)
  · rcases List.mem_cons.mp h2 with h3 | h4
    · subst h3; decide
    · exact hpadmem c (List.mem_of_mem_drop h4)

/-- The decimal-point digit list is never empty. -/
theorem decDigits_ne_nil (m e : Nat) : decDigits m e ≠ [] := by
  unfold decDigits
  simp

/-- The rendering of a modelled number contains no whitespace. -/
theorem numToString_not_ws : ∀ (j : JSNum), ∀ c ∈ (numToString j).data, c.isWhitespace = false := by
  intro j c hc
  cases j with
  | int i =>
    simp only [numToString, intToString] at hc
    split at hc
    · rw [String.data_append] at hc
      rcases List.mem_append.mp hc with h1 | h2
      · simp at h1; subst h1; decide
      · exact natDigAux_not_ws _ _ [] (by intro c2 hc2; simp at hc2) c h2
    · exact natDigAux_not_ws _ _ [] (by intro c2 hc2; simp at hc2) c hc
  | dec m e =>
    simp only [numToString] at hc
    rw [String.data_append] at hc
    rcases List.mem_append.mp hc with h1 | h2
    · split at h1
      · simp at h1; subst h1; decide
      · simp at h1
    · exact decDigits_not_ws m.natAbs e c h2

/-- The rendering of a modelled number is never empty. -/
theorem numToString_data_ne_nil : ∀ j : JSNum, (numToString j).data ≠ [] := by
  intro j
  cases j with
  | int i =>
    simp only [numToString, intToString]
    split
    · rw [String.data_append]
      simp
    · exact natToString_data_ne_nil _
  | dec m e =>
    simp only [numToString]
    rw [String.data_append]
    intro hc
    rcases List.append_eq_nil.mp hc with ⟨_, h2⟩
    exact decDigits_ne_nil m.natAbs e h2

/-- Dropping whitespace from the reverse of a list whose last character
is not whitespace changes nothing. -/
theorem dropWhile_rev_self (m : List Char)
    (hlast : ∀ c, m.getLast? = some c → jsWS c = false) :
    m.reverse.dropWhile jsWS = m.reverse := by
  cases hr : m.reverse with
  | nil => simp
  | cons c t =>
    have hh : m.getLast? = some c := by
      rw [← List.head?_reverse, hr]; rfl
    rw [List.dropWhile_cons, hlast c hh]
    simp

/-- Trimming a list whose first and last characters are not whitespace
changes nothing. -/
theorem trimCharsList_noop (l : List Char)
    (hhead : ∀ c, l.head? = some c → jsWS c = false)
    (hlast : ∀ c, l.getLast? = some c → jsWS c = false) :
    trimCharsList l = l := by
  unfold trimCharsList
  have h1 : l.dropWhile jsWS = l := by
    cases l with
    | nil => rfl
    | cons c t =>
      rw [List.dropWhile_cons, hhead c rfl]
      simp
  rw [h1, dropWhile_rev_self l hlast, List.reverse_reverse]

/-- Trimming a list that is a whitespace-free block followed by one
trailing space removes exactly that space. -/
theorem trimCharsList_drop_space (l : List Char)
    (hhead : ∀ c, l.head? = some c → jsWS c = false)
    (hlast : ∀ c, l.getLast? = some c → jsWS c = false) :
    trimCharsList (l ++ [Char.ofNat 32]) = l := by
  cases l with
  | nil => decide
  | cons c t =>
    unfold trimCharsList
    have h1 : ((c :: t) ++ [Char.ofNat 32]).dropWhile jsWS = (c :: t) ++ [Char.ofNat 32] := by
      rw [List.cons_append, List.dropWhile_cons, hhead c rfl]
      simp
    rw [h1, List.reverse_append]
    have h2 : ([Char.ofNat 32].reverse ++ (c :: t).reverse).dropWhile jsWS = (c :: t).reverse := by
      rw [show ([Char.ofNat 32] : List Char).reverse = [Char.ofNat 32] from rfl, List.singleton_append,
        List.dropWhile_cons]
      rw [show jsWS (Char.ofNat 32) = true from by decide]
      simp only [if_true]
      exact dropWhile_rev_self (c :: t) hlast
    rw [h2, List.reverse_reverse]

/-- The last character of a prefix followed by a number rendering is a
character of the rendering, hence not whitespace. -/
theorem last_append_num_not_ws (pre : List Char) (j : JSNum) :
    ∀ c, (pre ++ (numToString j).data).getLast? = some c → jsWS c = false := by
  intro c hc
  rw [List.getLast?_append] at hc
  cases hl : (numToString j).data.getLast? with
  | none => exact absurd (List.getLast?_eq_none_iff.mp hl) (numToString_data_ne_nil j)
  | some c2 =>
    rw [hl, Option.or_some] at hc
    injection hc with hc2
    subst hc2
    exact numToString_not_ws j c2 (List.mem_of_getLast?_eq_some hl)

/-- The START keyword head of the offset fragment is not whitespace. -/
theorem head_START_not_ws (rest : List Char) :
    ∀ c, (("START " : String).data ++ rest).head? = some c → jsWS c = false := by
  intro c hc
  rw [show (("START " : String)).data = Char.ofNat 83 :: ("TART " : String).data from rfl,
    List.cons_append, List.head?_cons] at hc
  injection hc with hc2
  subst hc2
  decide

/-- The LIMIT keyword head of the limit fragment is not whitespace. -/
theorem head_LIMIT_not_ws (rest : List Char) :
    ∀ c, (("LIMIT " : String).data ++ rest).head? = some c → jsWS c = false := by
  intro c hc
  rw [show (("LIMIT " : String)).data = Char.ofNat 76 :: ("IMIT " : String).data from rfl,
    List.cons_append, List.head?_cons] at hc
  injection hc with hc2
  subst hc2
  decide

/-- Limit-only equation of the pagination helper. -/
theorem limitOffset_limit_only (l : JSNum) :
    generateLimitOffsetClause (some l) none = "LIMIT " ++ numToString l := by
  show jsTrim ("" ++ ("LIMIT " ++ numToString l)) = "LIMIT " ++ numToString l
  unfold jsTrim
  rw [show ("" ++ ("LIMIT " ++ numToString l)) = "LIMIT " ++ numToString l from rfl,
    show ("LIMIT " ++ numToString l).data = ("LIMIT " : String).data ++ (numToString l).data from rfl]
  rw [trimCharsList_noop _ (head_LIMIT_not_ws _) (last_append_num_not_ws _ l)]
  rfl

/-- Offset-only equation of the pagination helper: the trailing space
of the START fragment is trimmed away. -/
theorem limitOffset_offset_only (o : JSNum) :
    generateLimitOffsetClause none (some o) = "START " ++ numToString o := by
  show jsTrim (("START " ++ numToString o ++ " ") ++ "") = "START " ++ numToString o
  unfold jsTrim
  rw [show (("START " ++ numToString o ++ " ") ++ "") = ("START " ++ numToString o) ++ " " from by
    rw [String.append_empty]]
  rw [show (("START " ++ numToString o) ++ " ").data =
    (("START " : String).data ++ (numToString o).data) ++ [Char.ofNat 32] from rfl]
  rw [trimCharsList_drop_space _ (head_START_not_ws _) (last_append_num_not_ws _ o)]
  rfl

/-- Both-present equation of the pagination helper: START precedes
LIMIT with single separating spaces and no edge whitespace. -/
theorem limitOffset_both (l o : JSNum) :
    generateLimitOffsetClause (some l) (some o) =
      "START " ++ numToString o ++ " LIMIT " ++ numToString l := by
  show jsTrim (("START " ++ numToString o ++ " ") ++ ("LIMIT " ++ numToString l)) = _
  unfold jsTrim
  rw [show (("START " ++ numToString o ++ " ") ++ ("LIMIT " ++ numToString l)).data =
    ("START " : String).data ++ ((numToString o).data ++ (" LIMIT " : String).data) ++ (numToString l).data from by
      simp [String.data_append]]
  rw [show ("START " : String).data ++ ((numToString o).data ++ (" LIMIT " : String).data) ++ (numToString l).data =
    (("START " : String).data ++ ((numToString o).data ++ (" LIMIT " : String).data)) ++ (numToString l).data from by
      simp]
  rw [trimCharsList_noop _ ?hh ?hl]
  case hh =>
    intro c hc
    rw [List.append_assoc] at hc
    exact head_START_not_ws _ c hc
  case hl =>
    intro c hc
    exact last_append_num_not_ws _ l c hc
  rw [show ((("START " : String).data ++ ((numToString o).data ++ (" LIMIT " : String).data)) ++ (numToString l).data) =
    ("START " ++ numToString o ++ " LIMIT " ++ numToString l).data from by simp [String.data_append]]

/-- A string whose first and last characters are not whitespace passes
the edge test. -/
theorem noEdge_of_facts (s : String)
    (hhead : ∀ c, s.data.head? = some c → jsWS c = false)
    (hlast : ∀ c, s.data.getLast? = some c → jsWS c = false) :
    noEdgeWhitespace s = true := by
  unfold noEdgeWhitespace
  rw [Bool.and_eq_true]
  constructor
  · split
    · rfl
    · rename_i c t heq
      have := hhead c (by rw [heq]; rfl)
      simp [this]
  · split
    · rfl
    · rename_i c heq
      have := hlast c heq
      simp [this]

/-- C10: the pagination helper validates nothing: every number-typed
limit and offset, including negative and non-integer values, is
interpolated verbatim (limit -5 yields LIMIT -5), START precedes LIMIT
when both are present, absent inputs omit their fragment, and the
result never carries leading or trailing whitespace. -/
theorem C10_limit_offset_no_validation :
    generateLimitOffsetClause none none = "" ∧
    (∀ o : JSNum, generateLimitOffsetClause none (some o) = "START " ++ numToString o) ∧
    (∀ l : JSNum, generateLimitOffsetClause (some l) none = "LIMIT " ++ numToString l) ∧
    (∀ l o : JSNum, generateLimitOffsetClause (some l) (some o) =
      "START " ++ numToString o ++ " LIMIT " ++ numToString l) ∧
    generateLimitOffsetClause (some (.int (-5))) none = "LIMIT -5" ∧
    generateLimitOffsetClause (some (.dec 25 1)) none = "LIMIT 2.5" ∧
    (∀ (lim off : Option JSNum), noEdgeWhitespace (generateLimitOffsetClause lim off) = true) := by
  refine ⟨by decide, limitOffset_offset_only, limitOffset_limit_only, limitOffset_both,
    by decide, by decide, ?_⟩
  intro lim off
  cases lim with
  | none =>
    cases off with
    | none => decide
    | some o =>
      rw [limitOffset_offset_only]
      exact noEdge_of_facts _ (head_START_not_ws _) (last_append_num_not_ws _ o)
  | some l =>
    cases off with
    | none =>
      rw [limitOffset_limit_only]
      exact noEdge_of_facts _ (head_LIMIT_not_ws _) (last_append_num_not_ws _ l)
    | some o =>
      rw [limitOffset_both]
      refine noEdge_of_facts _ ?_ (last_append_num_not_ws _ l)
      intro c hc
      rw [show ("START " ++ numToString o ++ " LIMIT " ++ numToString l).data =
        ("START " : String).data ++ ((numToString o).data ++ ((" LIMIT " : String).data ++ (numToString l).data)) from by
          simp [String.data_append]] at hc
      exact head_START_not_ws _ c hc
